import Mathlib

/-!
Shallow embedding of the kube-lock library (Go, package `lock`).

The repository implements a distributed lock stored in one entry of a
Kubernetes object's string→string map, guarded by the store's
resource-version compare-and-swap.  The core (`Acquire`, `Release`,
`CurrentOwner` on struct `kubeLock`) is embedded here as pure functions;
the four collaborator capabilities (`MetaCreator`, `MetaExists`,
`MetaGetter`, `MetaUpdater`) are external to the repository and are
modelled from the spec as operations on an explicit `StoreState`.

Wall-clock instants (`time.Time`) are embedded as `Int`; `time.Duration`
likewise, so `now.Add(ttl)` is `now + ttl` and `a.Before(b)` is `a < b`.
The string values stored in the map are classified by the outcome of the
JSON codec on them: the empty string, a string that `json.Unmarshal`
decodes into a `LockData`, or a non-empty string on which decoding fails
(`json.Marshal` of a `LockData` never fails and never yields the empty
string, so encoding is total and lands in the `record` class).
-/

namespace KubeLock

/-- Go `time.Time` / `time.Duration`, embedded as integers. -/
abbrev Time := Int

/-- Struct `LockData` (part_000, lines 87–90): the record serialized into the
lock field: `Owner` and `ExpiresAt`. -/
structure LockData where
  owner : String
  expiresAt : Time
deriving DecidableEq, Repr

/-- A raw string value stored under a key of the object's map, classified
by what `json.Unmarshal` does with it: the empty string `""`, a string
decoding to a `LockData`, or a non-empty string that fails to decode. -/
inductive RawVal where
  | empty
  | record (d : LockData)
  | malformed (s : String)
deriving DecidableEq, Repr

/-- The object's string→string map (Go `map[string]string`), as an
association list.  A `nil` Go map reads like the empty map, so both are
embedded as `[]`. -/
abbrev AnnMap := List (String × RawVal)

/-- Go map lookup `m[k]`: `none` embeds `ok = false` (key absent). -/
def annGet (m : AnnMap) (k : String) : Option RawVal :=
  match m with
  | [] => none
  | (k', v) :: rest => if k' = k then some v else annGet rest k

/-- Go map assignment `m[k] = v` (overwrite or append). -/
def annSet (m : AnnMap) (k : String) (v : RawVal) : AnnMap :=
  match m with
  | [] => [(k, v)]
  | (k', v') :: rest => if k' = k then (k', v) :: rest else (k', v') :: annSet rest k v

/-- The process-local coordinator `kubeLock` (part_000, lines 77–85):
only the three immutable configuration fields; the four collaborator
closures are supplied separately as the store model below.  Note the
struct holds no resource-version field, so no token can survive a call. -/
structure kubeLock where
  annotationKey : String
  ownerID : String
  ttl : Time
deriving DecidableEq, Repr

/-- The error values an operation can surface, by kind:
`alreadyLocked`/`notLockedByMe` are the errgo-tagged errors built at
part_000 lines 126 and 171 (carrying the foreign owner), `unmarshal` is a
`json.Unmarshal` failure on the given raw string, `conflict` is the
store's conditional-update rejection passed through `maskAny` unchanged,
`storeErr` any other collaborator failure. -/
inductive LockErr where
  | alreadyLocked (owner : String)
  | notLockedByMe (owner : String)
  | unmarshal (s : String)
  | conflict
  | storeErr (msg : String)
deriving DecidableEq, Repr

/-- The argument triple of a `MetaUpdater` call (part_000, line 94):
the map to write, the resource-version token presented for the
conditional update, and the opaque object payload. -/
structure UpdateCall where
  annotations : AnnMap
  resourceVersion : Nat
  item : String
deriving DecidableEq, Repr

/-- Method `Acquire` (part_000, lines 99–144) after the `getMeta` call: from the
fetched map, token and payload, either an error or the exact
`updateMeta` call issued.  Mirrors lines 113–137: a present non-empty
value is decoded (failure is fatal); a decoded record owned by someone
else and not yet expired aborts with `AlreadyLockedError`; otherwise a
fresh record `{Owner: l.ownerID, ExpiresAt: now + ttl}` is marshalled
into the map and submitted with the fetched token. -/
def acquirePlan (l : kubeLock) (now : Time) (ann : AnnMap) (rv : Nat) (item : String) :
    Except LockErr UpdateCall :=
  let write : Except LockErr UpdateCall :=
    .ok { annotations := annSet ann l.annotationKey
            (.record { owner := l.ownerID, expiresAt := now + l.ttl }),
          resourceVersion := rv, item := item }
  match annGet ann l.annotationKey with
  | some (.malformed s) => .error (.unmarshal s)
  | some (.record lockData) =>
      if lockData.owner ≠ l.ownerID ∧ now < lockData.expiresAt then
        .error (.alreadyLocked lockData.owner)
      else write
  | some .empty => write
  | none => write

/-- Method `Release` (part_000, lines 149–186) after the `getMeta` call:
`.ok none` is trivial success without an update call; `.ok (some c)`
means the update `c` is issued.  Mirrors lines 160–182: a present
non-empty value is decoded (failure fatal); a foreign record aborts with
`NotLockedByMeError` regardless of expiry; a present-but-empty value
returns success immediately; otherwise — including the key being
absent — `""` is written under the key with the fetched token. -/
def releasePlan (l : kubeLock) (ann : AnnMap) (rv : Nat) (item : String) :
    Except LockErr (Option UpdateCall) :=
  let write : Except LockErr (Option UpdateCall) :=
    .ok (some { annotations := annSet ann l.annotationKey .empty,
                resourceVersion := rv, item := item })
  match annGet ann l.annotationKey with
  | some (.malformed s) => .error (.unmarshal s)
  | some (.record lockData) =>
      if lockData.owner ≠ l.ownerID then .error (.notLockedByMe lockData.owner)
      else write
  | some .empty => .ok none
  | none => write

/-- Method `CurrentOwner` (part_000, lines 190–208) after the `getMeta` call:
decode the present non-empty value and return its owner (expiry is never
consulted); absent or empty yields `""` with no error. -/
def currentOwner (l : kubeLock) (ann : AnnMap) : Except LockErr String :=
  match annGet ann l.annotationKey with
  | some (.malformed s) => .error (.unmarshal s)
  | some (.record lockData) => .ok lockData.owner
  | some .empty => .ok ""
  | none => .ok ""

/-- Modelled from the spec: the remote store's observable state behind the
four collaborator capabilities (§6) — whether the backing object exists,
its string map, its resource-version token (opaque to the core; a counter
here), and its opaque payload. -/
structure StoreState where
  objExists : Bool
  annotations : AnnMap
  resourceVersion : Nat
  item : String
deriving DecidableEq, Repr

/-- Modelled from the spec: `create()` — create the backing remote object
if absent (fresh object: empty map, new version). -/
def storeCreate (s : StoreState) : StoreState :=
  if s.objExists then s
  else { objExists := true, annotations := [], resourceVersion := s.resourceVersion + 1,
         item := s.item }

/-- Modelled from the spec: `update(fields, versionToken, payload)` —
conditional write accepted only if the presented token matches the
store's current version, which it then advances; otherwise rejected with
the distinguishable conflict error. -/
def storeUpdate (s : StoreState) (c : UpdateCall) : Except LockErr StoreState :=
  if c.resourceVersion = s.resourceVersion then
    .ok { objExists := s.objExists, annotations := c.annotations,
          resourceVersion := s.resourceVersion + 1, item := c.item }
  else .error .conflict

/-- Issue a planned update against the store: a planning error or a
rejected update surfaces as the call's error and the store is untouched;
an accepted update yields the new store state. -/
def applyUpdate (s : StoreState) (r : Except LockErr UpdateCall) :
    Except LockErr Unit × StoreState :=
  match r with
  | .error e => (.error e, s)
  | .ok c =>
      match storeUpdate s c with
      | .error e => (.error e, s)
      | .ok s' => (.ok (), s')

/-- Method `Acquire` as one call against the store: ensure the object exists
(create if not, lines 100–106), `getMeta` the map/token/payload from the
resulting store, plan, and issue the update. -/
def acquire (l : kubeLock) (now : Time) (s0 : StoreState) :
    Except LockErr Unit × StoreState :=
  let s := if s0.objExists then s0 else storeCreate s0
  applyUpdate s (acquirePlan l now s.annotations s.resourceVersion s.item)

/-- Method `Release` as one call against the store: a missing object is trivial
success (lines 150–153); otherwise `getMeta`, plan, and issue the update
when one is planned. -/
def release (l : kubeLock) (s0 : StoreState) : Except LockErr Unit × StoreState :=
  if s0.objExists = false then (.ok (), s0)
  else
    match releasePlan l s0.annotations s0.resourceVersion s0.item with
    | .error e => (.error e, s0)
    | .ok none => (.ok (), s0)
    | .ok (some c) =>
        match storeUpdate s0 c with
        | .error e => (.error e, s0)
        | .ok s' => (.ok (), s')

/-- Two coordinators race `Acquire` on the same store: both `getMeta`
from `s0`, then the store serializes the two conditional updates, `a`'s
first. -/
def raceAcquire (a b : kubeLock) (ta tb : Time) (s0 : StoreState) :
    Except LockErr Unit × Except LockErr Unit × StoreState :=
  let pa := acquirePlan a ta s0.annotations s0.resourceVersion s0.item
  let pb := acquirePlan b tb s0.annotations s0.resourceVersion s0.item
  let ra := applyUpdate s0 pa
  let rb := applyUpdate ra.2 pb
  (ra.1, rb.1, rb.2)

/-- Repeated `Acquire` calls by one coordinator at the given instants,
stopping at the first failure. -/
def acquireSeq (l : kubeLock) (ts : List Time) (s : StoreState) :
    Except LockErr StoreState :=
  match ts with
  | [] => .ok s
  | t :: rest =>
      match acquire l t s with
      | (.ok _, s') => acquireSeq l rest s'
      | (.error e, _) => .error e

/-- The last instant of a call sequence, defaulting to the preceding one. -/
def lastTime (t0 : Time) : List Time → Time
  | [] => t0
  | t :: rest => lastTime t rest

/-! Concrete fixtures used by the witnesses. -/

/-- A coordinator identifying as `me` with a 60-tick TTL. -/
def lockMe : kubeLock := { annotationKey := "k", ownerID := "me", ttl := 60 }

/-- A second coordinator, distinct owner, same key. -/
def lockBob : kubeLock := { annotationKey := "k", ownerID := "bob", ttl := 60 }

/-- An existing object with no lock field at all. -/
def stFree : StoreState :=
  { objExists := true, annotations := [("other", .empty)], resourceVersion := 5, item := "p" }

/-- An existing object whose lock field holds a record owned by `alice`
expiring at instant 100. -/
def stAlice : StoreState :=
  { objExists := true,
    annotations := [("k", .record { owner := "alice", expiresAt := 100 })],
    resourceVersion := 5, item := "p" }

/-- An existing object whose lock field holds an undecodable value. -/
def stBad : StoreState :=
  { objExists := true, annotations := [("k", .malformed "gibberish")],
    resourceVersion := 5, item := "p" }

/-- An existing object whose lock field holds a record owned by `me`
expiring at instant 60 (as after an acquire at instant 0 with TTL 60). -/
def stMine : StoreState :=
  { objExists := true,
    annotations := [("k", .record { owner := "me", expiresAt := 60 })],
    resourceVersion := 5, item := "p" }

instance {ε α : Type} [DecidableEq ε] [DecidableEq α] : DecidableEq (Except ε α) := fun x y =>
  match x, y with
  | .error e, .error e' =>
      if h : e = e' then isTrue (by rw [h]) else isFalse (fun hh => h (Except.error.inj hh))
  | .ok a, .ok b =>
      if h : a = b then isTrue (by rw [h]) else isFalse (fun hh => h (Except.ok.inj hh))
  | .error _, .ok _ => isFalse (fun hh => Except.noConfusion hh)
  | .ok _, .error _ => isFalse (fun hh => Except.noConfusion hh)

/-! Map lemmas. -/

theorem annGet_annSet_self (m : AnnMap) (k : String) (v : RawVal) :
    annGet (annSet m k v) k = some v := by
  induction m with
  | nil => simp [annGet, annSet]
  | cons p rest ih =>
      obtain ⟨k', v'⟩ := p
      by_cases h : k' = k <;> simp [annGet, annSet, h, ih]

theorem annGet_annSet_ne (m : AnnMap) (k k' : String) (v : RawVal) (h : k' ≠ k) :
    annGet (annSet m k v) k' = annGet m k' := by
  induction m with
  | nil => simp [annGet, annSet, Ne.symm h]
  | cons p rest ih =>
      obtain ⟨k'', v''⟩ := p
      by_cases hk : k'' = k
      · subst hk
        simp [annGet, annSet, Ne.symm h]
      · by_cases hk' : k'' = k' <;> simp [annGet, annSet, hk, hk', h, ih]

/-- Inversion: the only update call `acquirePlan` can produce writes the
fresh record under the key and reuses the fetched token and payload. -/
theorem acquirePlan_ok (l : kubeLock) (now : Time) (ann : AnnMap) (rv : Nat)
    (item : String) (c : UpdateCall)
    (h : acquirePlan l now ann rv item = .ok c) :
    c = { annotations := annSet ann l.annotationKey
            (.record { owner := l.ownerID, expiresAt := now + l.ttl }),
          resourceVersion := rv, item := item } := by
  simp only [acquirePlan] at h
  split at h
  · exact Except.noConfusion h
  · split at h
    · exact Except.noConfusion h
    · exact (Except.ok.inj h).symm
  · exact (Except.ok.inj h).symm
  · exact (Except.ok.inj h).symm

/-- Inversion: the only update call `releasePlan` can produce writes the
empty string under the key and reuses the fetched token and payload. -/
theorem releasePlan_ok (l : kubeLock) (ann : AnnMap) (rv : Nat)
    (item : String) (c : UpdateCall)
    (h : releasePlan l ann rv item = .ok (some c)) :
    c = { annotations := annSet ann l.annotationKey .empty,
          resourceVersion := rv, item := item } := by
  simp only [releasePlan] at h
  split at h
  · exact Except.noConfusion h
  · split at h
    · exact Except.noConfusion h
    · exact (Option.some.inj (Except.ok.inj h)).symm
  · exact Option.noConfusion (Except.ok.inj h)
  · exact (Option.some.inj (Except.ok.inj h)).symm

/-! Claim theorems. -/

/-- C3: a fetched record with a foreign owner and `expiresAt` still in the
future makes `Acquire` fail with `AlreadyLockedError` carrying that
owner, issuing no update call: the store is returned unchanged. -/
theorem acquire_foreign_live_conflict (l : kubeLock) (now : Time) (s0 : StoreState)
    (d : LockData) (hex : s0.objExists = true)
    (hget : annGet s0.annotations l.annotationKey = some (.record d))
    (hown : d.owner ≠ l.ownerID) (hlive : now < d.expiresAt) :
    acquire l now s0 = (.error (.alreadyLocked d.owner), s0) := by
  simp [acquire, hex, acquirePlan, hget, hown, hlive, applyUpdate]

theorem acquire_foreign_live_conflict_witness :
    acquire lockMe 50 stAlice = (.error (.alreadyLocked "alice"), stAlice) :=
  acquire_foreign_live_conflict lockMe 50 stAlice
    { owner := "alice", expiresAt := 100 } (by decide) (by decide) (by decide) (by decide)

/-- C4: a fetched record with a foreign owner whose `expiresAt` has
passed is taken over: `Acquire` succeeds (the conditional update, fed the
token just fetched, is accepted) and the field afterwards holds a record
with this coordinator's owner and `expiresAt = now + ttl`. -/
theorem acquire_takeover (l : kubeLock) (now : Time) (s0 : StoreState)
    (d : LockData) (hex : s0.objExists = true)
    (hget : annGet s0.annotations l.annotationKey = some (.record d))
    (hown : d.owner ≠ l.ownerID) (hexp : d.expiresAt < now) :
    (acquire l now s0).1 = .ok () ∧
    annGet (acquire l now s0).2.annotations l.annotationKey =
      some (.record { owner := l.ownerID, expiresAt := now + l.ttl }) := by
  have hnot : ¬(d.owner ≠ l.ownerID ∧ now < d.expiresAt) := by
    rintro ⟨-, h⟩; exact lt_asymm hexp h
  simp [acquire, hex, acquirePlan, hget, hnot, applyUpdate, storeUpdate,
    annGet_annSet_self]

theorem acquire_takeover_witness :
    (acquire lockBob 150 stAlice).1 = .ok () ∧
    annGet (acquire lockBob 150 stAlice).2.annotations "k" =
      some (.record { owner := "bob", expiresAt := 210 }) :=
  acquire_takeover lockBob 150 stAlice { owner := "alice", expiresAt := 100 }
    (by decide) (by decide) (by decide) (by decide)

/-- C5: `Release` on a fetched foreign-owned record fails with
`NotLockedByMeError` carrying that owner and writes nothing (expiry is
never consulted); `Release` on a record owned by this coordinator
succeeds and leaves the field present with the empty-string value. -/
theorem release_authorization (l : kubeLock) (s0 : StoreState) (d : LockData)
    (hex : s0.objExists = true)
    (hget : annGet s0.annotations l.annotationKey = some (.record d)) :
    (d.owner ≠ l.ownerID → release l s0 = (.error (.notLockedByMe d.owner), s0)) ∧
    (d.owner = l.ownerID →
      (release l s0).1 = .ok () ∧
      annGet (release l s0).2.annotations l.annotationKey = some .empty) := by
  constructor
  · intro hown
    simp [release, hex, releasePlan, hget, hown]
  · intro hown
    simp [release, hex, releasePlan, hget, hown, storeUpdate, annGet_annSet_self]

theorem release_authorization_witness :
    release lockBob stAlice = (.error (.notLockedByMe "alice"), stAlice) :=
  (release_authorization lockBob stAlice { owner := "alice", expiresAt := 100 }
    (by decide) (by decide)).1 (by decide)

/-- C6: `CurrentOwner` returns the decoded record's owner whenever the
field is present and non-empty — it never looks at `expiresAt` — and
returns `""` with no error when the field is absent or empty. -/
theorem currentOwner_ignores_expiry (l : kubeLock) (ann : AnnMap) :
    (∀ d, annGet ann l.annotationKey = some (.record d) →
      currentOwner l ann = .ok d.owner) ∧
    (annGet ann l.annotationKey = none ∨ annGet ann l.annotationKey = some .empty →
      currentOwner l ann = .ok "") := by
  constructor
  · intro d hget
    simp [currentOwner, hget]
  · rintro (hget | hget) <;> simp [currentOwner, hget]

theorem currentOwner_ignores_expiry_witness :
    currentOwner lockMe stAlice.annotations = .ok "alice" :=
  (currentOwner_ignores_expiry lockMe stAlice.annotations).1
    { owner := "alice", expiresAt := 100 } (by decide)

/-- C7: a stored non-empty value that fails to decode makes `Acquire`,
`Release` and `CurrentOwner` alike return the unmarshal error with no
write: both state-changing operations return the store unchanged. -/
theorem malformed_record_fatal (l : kubeLock) (now : Time) (s0 : StoreState)
    (str : String) (hex : s0.objExists = true)
    (hget : annGet s0.annotations l.annotationKey = some (.malformed str)) :
    acquire l now s0 = (.error (.unmarshal str), s0) ∧
    release l s0 = (.error (.unmarshal str), s0) ∧
    currentOwner l s0.annotations = .error (.unmarshal str) := by
  refine ⟨?_, ?_, ?_⟩
  · simp [acquire, hex, acquirePlan, hget, applyUpdate]
  · simp [release, hex, releasePlan, hget]
  · simp [currentOwner, hget]

theorem malformed_record_fatal_witness :
    acquire lockMe 0 stBad = (.error (.unmarshal "gibberish"), stBad) ∧
    release lockMe stBad = (.error (.unmarshal "gibberish"), stBad) ∧
    currentOwner lockMe stBad.annotations = .error (.unmarshal "gibberish") :=
  malformed_record_fatal lockMe 0 stBad "gibberish" (by decide) (by decide)

/-- C2 counterexample: on an existing object whose map lacks the lock
field entirely, `Release` does not return with the store untouched — the
absent-field case falls through to the write path (only the
present-and-empty case returns early), so an update call is issued and
the stored state changes. -/
theorem release_absent_counterexample :
    annGet stFree.annotations lockMe.annotationKey = none ∧
    releasePlan lockMe stFree.annotations stFree.resourceVersion stFree.item ≠
      .ok none ∧
    (release lockMe stFree).2 ≠ stFree := by decide

/-- C2 amended: `Release` succeeds with no update call when the backing
object does not exist or when the field is present with the empty-string
value; but when the field is absent from an existing object, `Release`
issues a conditional update writing the empty string under the field key
(succeeding, with the field now present and empty). -/
theorem release_idempotent_amended (l : kubeLock) (s0 : StoreState) :
    (s0.objExists = false → release l s0 = (.ok (), s0)) ∧
    (annGet s0.annotations l.annotationKey = some .empty →
      release l s0 = (.ok (), s0)) ∧
    (s0.objExists = true → annGet s0.annotations l.annotationKey = none →
      (release l s0).1 = .ok () ∧
      (release l s0).2.annotations = annSet s0.annotations l.annotationKey .empty) := by
  refine ⟨?_, ?_, ?_⟩
  · intro hex
    simp [release, hex]
  · intro hget
    by_cases hex : s0.objExists <;> simp [release, hex, releasePlan, hget]
  · intro hex hget
    simp [release, hex, releasePlan, hget, storeUpdate]

theorem release_idempotent_amended_witness :
    (release lockMe stFree).1 = .ok () ∧
    (release lockMe stFree).2.annotations =
      annSet stFree.annotations lockMe.annotationKey .empty :=
  (release_idempotent_amended lockMe stFree).2.2 (by decide) (by decide)

/-- C8: whenever `Acquire` or `Release` plans an update call, the version
token it submits is exactly the token returned by the `getMeta` of that
same call — the coordinator holds no version field, so no token survives
a call. -/
theorem update_token_is_fetched (l : kubeLock) (now : Time) (ann : AnnMap)
    (rv : Nat) (item : String) :
    (∀ c, acquirePlan l now ann rv item = .ok c → c.resourceVersion = rv) ∧
    (∀ c, releasePlan l ann rv item = .ok (some c) → c.resourceVersion = rv) := by
  constructor
  · intro c h
    rw [acquirePlan_ok l now ann rv item c h]
  · intro c h
    rw [releasePlan_ok l ann rv item c h]

theorem update_token_is_fetched_witness :
    ({ annotations := annSet stFree.annotations "k"
         (.record { owner := "me", expiresAt := 60 }),
       resourceVersion := 5, item := "p" } : UpdateCall).resourceVersion = 5 :=
  (update_token_is_fetched lockMe 0 stFree.annotations 5 "p").1
    { annotations := annSet stFree.annotations "k"
        (.record { owner := "me", expiresAt := 60 }),
      resourceVersion := 5, item := "p" } (by decide)

/-- C10: a planned update call of `Acquire` or `Release` rewrites only the
entry under the coordinator's annotation key: every other key of the
fetched map reads the same afterwards, and the opaque payload is passed
through unchanged. -/
theorem frame_only_lock_key (l : kubeLock) (now : Time) (ann : AnnMap)
    (rv : Nat) (item : String) (k : String) (hk : k ≠ l.annotationKey) :
    (∀ c, acquirePlan l now ann rv item = .ok c →
      annGet c.annotations k = annGet ann k ∧ c.item = item) ∧
    (∀ c, releasePlan l ann rv item = .ok (some c) →
      annGet c.annotations k = annGet ann k ∧ c.item = item) := by
  constructor
  · intro c h
    rw [acquirePlan_ok l now ann rv item c h]
    exact ⟨annGet_annSet_ne _ _ _ _ hk, rfl⟩
  · intro c h
    rw [releasePlan_ok l ann rv item c h]
    exact ⟨annGet_annSet_ne _ _ _ _ hk, rfl⟩

theorem frame_only_lock_key_witness :
    annGet (annSet stFree.annotations "k"
      (.record { owner := "me", expiresAt := 60 })) "other" =
        annGet stFree.annotations "other" ∧
    ("p" : String) = "p" :=
  (frame_only_lock_key lockMe 0 stFree.annotations 5 "p" "other" (by decide)).1
    { annotations := annSet stFree.annotations "k"
        (.record { owner := "me", expiresAt := 60 }),
      resourceVersion := 5, item := "p" } (by decide)

/-- C1: two coordinators with distinct owners race `Acquire` on the same
key of an object with no prior holder; both fetch the same version token,
the store serializes the two conditional updates, the first lands, and
the second is rejected: at most one `Acquire` succeeds, and the loser
returns the store's conflict error passed through unchanged. -/
theorem race_mutual_exclusion (a b : kubeLock) (ta tb : Time) (s0 : StoreState)
    (hkey : b.annotationKey = a.annotationKey)
    (hown : a.ownerID ≠ b.ownerID)
    (hfree : annGet s0.annotations a.annotationKey = none ∨
             annGet s0.annotations a.annotationKey = some .empty) :
    (raceAcquire a b ta tb s0).1 = .ok () ∧
    (raceAcquire a b ta tb s0).2.1 = .error .conflict := by
  have hfreeb : annGet s0.annotations b.annotationKey = none ∨
      annGet s0.annotations b.annotationKey = some .empty := hkey ▸ hfree
  rcases hfree with h | h <;> rcases hfreeb with h' | h' <;>
    simp [raceAcquire, acquirePlan, h, h', applyUpdate, storeUpdate]

theorem race_mutual_exclusion_witness :
    (raceAcquire lockMe lockBob 0 0 stFree).1 = .ok () ∧
    (raceAcquire lockMe lockBob 0 0 stFree).2.1 = .error .conflict :=
  race_mutual_exclusion lockMe lockBob 0 0 stFree rfl (by decide) (by decide)

/-- An `Acquire` by the current owner always succeeds and stamps a fresh
record `{owner, now + ttl}`, advancing the store's version by one. -/
theorem acquire_own_succeeds (l : kubeLock) (t : Time) (s : StoreState) (e : Time)
    (hex : s.objExists = true)
    (hget : annGet s.annotations l.annotationKey =
      some (.record { owner := l.ownerID, expiresAt := e })) :
    acquire l t s =
      (.ok (),
        { objExists := true,
          annotations := annSet s.annotations l.annotationKey
            (.record { owner := l.ownerID, expiresAt := t + l.ttl }),
          resourceVersion := s.resourceVersion + 1, item := s.item }) := by
  simp [acquire, hex, acquirePlan, hget, applyUpdate, storeUpdate]

/-- C9: repeated `Acquire` calls by the holding owner at strictly
increasing instants, each before the previous expiry, all succeed; the
stored `expiresAt` after each call is `call time + ttl`, hence strictly
increasing along the sequence. -/
theorem acquire_renewal_monotone (l : kubeLock) (s : StoreState) (t0 : Time)
    (ts : List Time) (hex : s.objExists = true)
    (hget : annGet s.annotations l.annotationKey =
      some (.record { owner := l.ownerID, expiresAt := t0 + l.ttl }))
    (hchain : List.Chain (fun t t' => t < t' ∧ t' < t + l.ttl) t0 ts) :
    (∃ s', acquireSeq l ts s = .ok s' ∧
      annGet s'.annotations l.annotationKey =
        some (.record { owner := l.ownerID, expiresAt := lastTime t0 ts + l.ttl })) ∧
    List.Chain (fun e e' => e < e') (t0 + l.ttl) (ts.map (fun t => t + l.ttl)) := by
  induction ts generalizing t0 s with
  | nil => exact ⟨⟨s, rfl, hget⟩, List.Chain.nil⟩
  | cons t rest ih =>
      rw [List.chain_cons] at hchain
      obtain ⟨⟨hlt, -⟩, hchain'⟩ := hchain
      have hacq := acquire_own_succeeds l t s (t0 + l.ttl) hex hget
      obtain ⟨⟨s', hseq, hlast⟩, hchainmap⟩ :=
        ih { objExists := true,
             annotations := annSet s.annotations l.annotationKey
               (.record { owner := l.ownerID, expiresAt := t + l.ttl }),
             resourceVersion := s.resourceVersion + 1, item := s.item }
          t rfl (annGet_annSet_self _ _ _) hchain'
      refine ⟨⟨s', ?_, ?_⟩, ?_⟩
      · simp only [acquireSeq]
        rw [hacq]
        exact hseq
      · simpa [lastTime] using hlast
      · rw [List.map_cons, List.chain_cons]
        exact ⟨add_lt_add_right hlt l.ttl, hchainmap⟩

theorem acquire_renewal_monotone_witness :
    (∃ s', acquireSeq lockMe [10, 20] stMine = .ok s' ∧
      annGet s'.annotations lockMe.annotationKey =
        some (.record { owner := lockMe.ownerID,
                        expiresAt := lastTime 0 [10, 20] + lockMe.ttl })) ∧
    List.Chain (fun e e' => e < e') (0 + lockMe.ttl)
      ([10, 20].map (fun t => t + lockMe.ttl)) :=
  acquire_renewal_monotone lockMe stMine 0 [10, 20] rfl (by decide)
    (.cons (by decide) (.cons (by decide) .nil))

end KubeLock
